import Mathlib

/-!
Verification of the fx-82MS calculator emulator logic (src/script.js).

The calculator core is a state machine over a single mutable record.  We give
a shallow embedding of that state machine.  JavaScript IEEE-754 numbers are
modelled by exact rational arithmetic: a value is either an explicit fraction
(an unreduced integer numerator over a positive natural denominator, kept
unnormalised so that every operation is kernel-computable), or one of the
special values NaN, Infinity, -Infinity.  Float rounding and overflow are
outside the model; none of the properties below depend on them.  The host
transcendental functions (Math.sin, Math.sqrt, ...) compute irrational values
that no exact representation can mirror, so they are abstracted as an explicit
parameter (a structure of function symbols) threaded through the machine; all
dispatch logic around them is embedded faithfully.
-/

/-- An unnormalised fraction: integer numerator over a natural denominator.
The denominator is positive for every value the machine constructs. -/
structure Frac where
  n : Int
  d : Nat
deriving DecidableEq, Repr

/-- A JavaScript number: an exact finite value or one of the special values
NaN, Infinity, -Infinity. -/
inductive JSNum where
  | num (q : Frac)
  | nan
  | inf
  | ninf
deriving DecidableEq, Repr

/-- The finite number zero. -/
def jsZero : JSNum := JSNum.num ⟨0, 1⟩

/-- The finite number one. -/
def jsOne : JSNum := JSNum.num ⟨1, 1⟩

/-- Fraction addition (cross multiplication, no reduction). -/
def fracAdd (a b : Frac) : Frac := ⟨a.n * b.d + b.n * a.d, a.d * b.d⟩

/-- Fraction subtraction. -/
def fracSub (a b : Frac) : Frac := ⟨a.n * b.d - b.n * a.d, a.d * b.d⟩

/-- Fraction multiplication. -/
def fracMul (a b : Frac) : Frac := ⟨a.n * b.n, a.d * b.d⟩

/-- Fraction division; callers guard against a zero divisor. -/
def fracDiv (a b : Frac) : Frac :=
  if b.n < 0 then ⟨-(a.n * b.d), a.d * b.n.natAbs⟩
  else ⟨a.n * b.d, a.d * b.n.natAbs⟩

/-- Fraction negation. -/
def fracNeg (a : Frac) : Frac := ⟨-a.n, a.d⟩

/-- Strict order on fractions by cross multiplication (denominators are
positive). -/
def fracLt (a b : Frac) : Bool := decide (a.n * (b.d : Int) < b.n * (a.d : Int))

/-- Floor of a fraction, via flooring integer division. -/
def fracFloor (a : Frac) : Int := Int.fdiv a.n a.d

/-- Truncation of a fraction toward zero (the rounding used by the JavaScript
remainder operator). -/
def fracTrunc (a : Frac) : Int := Int.tdiv a.n a.d

/-- JavaScript addition on numbers, including the special values. -/
def jsAdd : JSNum → JSNum → JSNum
  | .num a, .num b => .num (fracAdd a b)
  | .nan, _ => .nan
  | _, .nan => .nan
  | .inf, .ninf => .nan
  | .ninf, .inf => .nan
  | .inf, _ => .inf
  | _, .inf => .inf
  | .ninf, _ => .ninf
  | _, .ninf => .ninf

/-- JavaScript subtraction on numbers. -/
def jsSub : JSNum → JSNum → JSNum
  | .num a, .num b => .num (fracSub a b)
  | .nan, _ => .nan
  | _, .nan => .nan
  | .inf, .inf => .nan
  | .ninf, .ninf => .nan
  | .inf, _ => .inf
  | _, .inf => .ninf
  | .ninf, _ => .ninf
  | _, .ninf => .inf

/-- JavaScript multiplication on numbers. -/
def jsMul : JSNum → JSNum → JSNum
  | .num a, .num b => .num (fracMul a b)
  | .nan, _ => .nan
  | _, .nan => .nan
  | .inf, .num b => if b.n = 0 then .nan else if 0 < b.n then .inf else .ninf
  | .num b, .inf => if b.n = 0 then .nan else if 0 < b.n then .inf else .ninf
  | .ninf, .num b => if b.n = 0 then .nan else if 0 < b.n then .ninf else .inf
  | .num b, .ninf => if b.n = 0 then .nan else if 0 < b.n then .ninf else .inf
  | .inf, .inf => .inf
  | .ninf, .ninf => .inf
  | .inf, .ninf => .ninf
  | .ninf, .inf => .ninf

/-- JavaScript division on numbers (signed zero is not modelled, so division
of a nonzero value by zero picks the sign of the dividend). -/
def jsDiv : JSNum → JSNum → JSNum
  | .num a, .num b =>
    if b.n = 0 then (if a.n = 0 then .nan else if 0 < a.n then .inf else .ninf)
    else .num (fracDiv a b)
  | .nan, _ => .nan
  | _, .nan => .nan
  | .num _, .inf => jsZero
  | .num _, .ninf => jsZero
  | .inf, .num b => if 0 ≤ b.n then .inf else .ninf
  | .ninf, .num b => if 0 ≤ b.n then .ninf else .inf
  | .inf, .inf => .nan
  | .inf, .ninf => .nan
  | .ninf, .inf => .nan
  | .ninf, .ninf => .nan

/-- JavaScript remainder: the sign follows the dividend, computed as
a - b * trunc(a / b). -/
def jsRem : JSNum → JSNum → JSNum
  | .num a, .num b =>
    if b.n = 0 then .nan
    else .num (fracSub a (fracMul b ⟨fracTrunc (fracDiv a b), 1⟩))
  | .nan, _ => .nan
  | _, .nan => .nan
  | .inf, _ => .nan
  | .ninf, _ => .nan
  | .num a, .inf => .num a
  | .num a, .ninf => .num a

/-- Math.floor on a JavaScript number. -/
def jsFloor : JSNum → JSNum
  | .num q => .num ⟨fracFloor q, 1⟩
  | x => x

/-- Math.abs on a JavaScript number. -/
def jsAbs : JSNum → JSNum
  | .num q => .num ⟨Int.ofNat q.n.natAbs, q.d⟩
  | .nan => .nan
  | _ => .inf

/-- The strict less-than comparison; false whenever NaN is involved. -/
def jsLt : JSNum → JSNum → Bool
  | .num a, .num b => fracLt a b
  | .nan, _ => false
  | _, .nan => false
  | .inf, .inf => false
  | .ninf, .ninf => false
  | .ninf, _ => true
  | _, .inf => true
  | .inf, _ => false
  | _, .ninf => false

/-- The isFinite test: true exactly on explicit fractions. -/
def jsFinite : JSNum → Bool
  | .num _ => true
  | _ => false

/-- Strict equality with the number literal 0 (the test b === 0): an
unnormalised fraction denotes zero exactly when its numerator is zero. -/
def jsEqZero : JSNum → Bool
  | .num q => decide (q.n = 0)
  | _ => false

/-- Truthiness of a number (the test used by the expression x || 0): zero and
NaN are falsy. -/
def jsFalsy : JSNum → Bool
  | .num q => decide (q.n = 0)
  | .nan => true
  | _ => false

/-- Math.pow with base 10 at an integral exponent, as used by the engineering
notation key, where the exponent is 3 * floor(...).  Only the numerator of the
(always integral) exponent is consulted. -/
def jsPowTen : JSNum → JSNum
  | .num q => if q.n < 0 then .num ⟨1, 10 ^ q.n.natAbs⟩
              else .num ⟨Int.ofNat (10 ^ q.n.toNat), 1⟩
  | .nan => .nan
  | .inf => .inf
  | .ninf => jsZero

/-- The factorial key body from src/script.js lines 292-302: v is floored;
a negative v yields NaN; otherwise res = 2 * 3 * ... * v, which equals the
factorial of v (1 when v < 2).  A NaN bound makes the loop condition i <= v
false, so the loop is skipped and the result is 1.  For an Infinity bound the
source loop does not terminate; that case is unreachable (no reachable entry
string parses to Infinity) and is mapped to NaN here. -/
def jsFact (v : JSNum) : JSNum :=
  let w := jsFloor v
  if jsLt w jsZero then .nan
  else match w with
    | .num z => .num ⟨Int.ofNat (Nat.factorial z.n.toNat), 1⟩
    | .nan => jsOne
    | .inf => .nan
    | .ninf => .nan

/-- Numeric value of a list of decimal digit characters. -/
def digitsToNat (ds : List Char) : Nat :=
  ds.foldl (fun a c => a * 10 + (c.toNat - 48)) 0

/-- Exponent part of the string-to-number grammar, given the sign and mantissa
already read: an optional sign followed by at least one digit, consuming the
whole remainder of the string. -/
def parseExpPart (neg : Bool) (mant : Frac) (cs : List Char) : Option Frac :=
  let (esign, cs2) :=
    match cs with
    | '-' :: t => (true, t)
    | '+' :: t => (false, t)
    | _ => (false, cs)
  let eds := cs2.takeWhile Char.isDigit
  let rest := cs2.dropWhile Char.isDigit
  if eds.isEmpty ∨ ¬ rest.isEmpty then none
  else
    let m := if neg then fracNeg mant else mant
    some (if esign then fracMul m ⟨1, 10 ^ digitsToNat eds⟩
          else fracMul m ⟨Int.ofNat (10 ^ digitsToNat eds), 1⟩)

/-- The decimal core of the JavaScript Number(string) grammar: an optional
sign, digits with at most one point (at least one digit overall), and an
optional exponent part.  Strings outside the grammar give none (NaN). -/
def parseFrac (cs : List Char) : Option Frac :=
  let (neg, cs1) :=
    match cs with
    | '-' :: t => (true, t)
    | '+' :: t => (false, t)
    | _ => (false, cs)
  let ids := cs1.takeWhile Char.isDigit
  let cs2 := cs1.dropWhile Char.isDigit
  let (fds, cs3) :=
    match cs2 with
    | '.' :: t => (t.takeWhile Char.isDigit, t.dropWhile Char.isDigit)
    | _ => (([] : List Char), cs2)
  if ids.isEmpty ∧ fds.isEmpty then none
  else
    let mant : Frac :=
      fracAdd ⟨Int.ofNat (digitsToNat ids), 1⟩
              ⟨Int.ofNat (digitsToNat fds), 10 ^ fds.length⟩
    match cs3 with
    | [] => some (if neg then fracNeg mant else mant)
    | c :: t => if c = 'e' ∨ c = 'E' then parseExpPart neg mant t else none

/-- The utility toNumber from src/script.js line 54: the empty string maps to
0 (both by the explicit test in the source and by the Number coercion), the
Infinity literals map to the infinite values, and any other string is read by
the decimal number grammar, with NaN for strings outside it.  Hexadecimal
literals and surrounding white space, which no reachable entry string
contains, are not modelled. -/
def toNumber (str : String) : JSNum :=
  if str = "" then jsZero
  else if str = "Infinity" ∨ str = "+Infinity" then .inf
  else if str = "-Infinity" then .ninf
  else match parseFrac str.data with
    | some q => .num q
    | none => .nan

/-- Decimal expansion of a proper remainder over a denominator, producing up
to fuel digits.  The expansion stops exactly when the remainder vanishes, so
terminating expansions are rendered exactly; JavaScript shortest-round-trip
float formatting of non-terminating expansions is approximated by truncation. -/
def fracDigitChars : Nat → Nat → Nat → List Char
  | _, _, 0 => []
  | r, d, fuel + 1 =>
    if r = 0 then []
    else Nat.digitChar (r * 10 / d) :: fracDigitChars (r * 10 % d) d fuel

/-- Decimal string of a fraction: optional minus sign, integer part, and a
fractional part when the remainder is nonzero. -/
def fracToString (q : Frac) : String :=
  let na := q.n.natAbs
  let ip := na / q.d
  let r := na % q.d
  (if q.n < 0 then "-" else "") ++ Nat.repr ip ++
    (if r = 0 then "" else "." ++ String.mk (fracDigitChars r q.d 20))

/-- The String(n) coercion on a JavaScript number. -/
def numToString : JSNum → String
  | .num q => fracToString q
  | .nan => "NaN"
  | .inf => "Infinity"
  | .ninf => "-Infinity"

/-- String(Math.PI): the decimal rendering of the double closest to pi. -/
def piString : String := "3.141592653589793"

/-- Drop the final character of a string (the slice(0, -1) used by DEL). -/
def strDropLast (s : String) : String := String.mk s.data.dropLast

/-- Angle mode, DEG or RAD. -/
inductive AngleMode where
  | DEG
  | RAD
deriving DecidableEq, Repr

/-- The pending binary operators. -/
inductive BinOp where
  | add
  | sub
  | mul
  | div
  | mod
deriving DecidableEq, Repr

/-- The three trigonometric key kinds. -/
inductive TrigKind where
  | sin
  | cos
  | tan
deriving DecidableEq, Repr

/-- The ALPHA variable names A through F. -/
inductive VarName where
  | A
  | B
  | C
  | D
  | E
  | F
deriving DecidableEq, Repr

/-- The sparse ALPHA variable store (state.vars); an absent entry means the
variable is empty. -/
structure VarMap where
  a : Option JSNum := none
  b : Option JSNum := none
  c : Option JSNum := none
  d : Option JSNum := none
  e : Option JSNum := none
  f : Option JSNum := none
deriving DecidableEq, Repr

/-- Look a variable up in the store. -/
def VarMap.get (m : VarMap) : VarName → Option JSNum
  | .A => m.a
  | .B => m.b
  | .C => m.c
  | .D => m.d
  | .E => m.e
  | .F => m.f

/-- Write a variable into the store. -/
def VarMap.set (m : VarMap) (k : VarName) (v : JSNum) : VarMap :=
  match k with
  | .A => { m with a := some v }
  | .B => { m with b := some v }
  | .C => { m with c := some v }
  | .D => { m with d := some v }
  | .E => { m with e := some v }
  | .F => { m with f := some v }

/-- The calculator state record from src/script.js lines 19-31. -/
structure CalcState where
  power : Bool
  shift : Bool
  alpha : Bool
  hyp : Bool
  mode : AngleMode
  acc : JSNum
  pendingOp : Option BinOp
  current : String
  lastAns : JSNum
  memory : JSNum
  vars : VarMap
deriving DecidableEq, Repr

/-- The initial powered-on state. -/
def initState : CalcState :=
  { power := true, shift := false, alpha := false, hyp := false,
    mode := AngleMode.DEG, acc := jsZero, pendingOp := none, current := "",
    lastAns := jsZero, memory := jsZero, vars := {} }

/-- The abstract events the adapter delivers to the core.  Digits carry the
digit value; STO and RCL carry the variable letter resolved by the adapter
(none models a cancelled or invalid selection, both of which the source
rejects with the same state effect). -/
inductive Event where
  | powerOn
  | shiftKey
  | alphaKey
  | hypKey
  | modeKey
  | drg
  | ac
  | del
  | ans
  | pi
  | percent
  | sqrt
  | recip
  | square
  | cube
  | log
  | ln
  | trig (k : TrigKind)
  | fact
  | eq
  | sto (l : Option VarName)
  | rcl (l : Option VarName)
  | mplus
  | mminus
  | mr
  | mc
  | eng
  | digit (d : Fin 10)
  | dot
  | op (o : BinOp)
deriving DecidableEq, Repr

/-- The host Math functions used by the source, abstracted as function
symbols: these compute irrational values on IEEE doubles, which no exact
embedding can mirror, while every piece of dispatch logic around them is
embedded concretely.  In the source, degToRad is v * pi / 180 and radToDeg is
v * 180 / pi. -/
structure Prims where
  sin : JSNum → JSNum
  cos : JSNum → JSNum
  tan : JSNum → JSNum
  asin : JSNum → JSNum
  acos : JSNum → JSNum
  atan : JSNum → JSNum
  sinh : JSNum → JSNum
  cosh : JSNum → JSNum
  tanh : JSNum → JSNum
  asinh : JSNum → JSNum
  acosh : JSNum → JSNum
  atanh : JSNum → JSNum
  sqrt : JSNum → JSNum
  log10 : JSNum → JSNum
  ln : JSNum → JSNum
  exp : JSNum → JSNum
  pow10 : JSNum → JSNum
  degToRad : JSNum → JSNum
  radToDeg : JSNum → JSNum

/-- An arbitrary interpretation of the host math functions, used to
instantiate runs that never invoke them. -/
def anyPrims : Prims :=
  { sin := id, cos := id, tan := id, asin := id, acos := id, atan := id,
    sinh := id, cosh := id, tanh := id, asinh := id, acosh := id, atanh := id,
    sqrt := id, log10 := id, ln := id, exp := id, pow10 := id,
    degToRad := id, radToDeg := id }

/-- clearShifts from src/script.js lines 152-157: SHIFT and ALPHA are one
shot; HYP is persistent and deliberately not cleared. -/
def clearShifts (s : CalcState) : CalcState :=
  { s with shift := false, alpha := false }

/-- The read value used throughout the source, written there both as
toNumber(state.current || state.lastAns) and as
toNumber(state.current === empty ? state.lastAns : state.current): when the
entry is non-empty its parse, otherwise lastAns (passing a number through
toNumber is the identity, and the || fallback only replaces a falsy lastAns
by an equal value). -/
def readVal (s : CalcState) : JSNum :=
  if s.current = "" then s.lastAns else toNumber s.current

/-- applyUnary from src/script.js lines 56-64: compute f on the read value;
a non-finite result stores the error sentinel, a finite one its string form;
then one-shot-clear the modifiers.  None of the unary bodies throw, so the
try/catch in the source is dead in this model. -/
def applyUnary (f : JSNum → JSNum) (s : CalcState) : CalcState :=
  if s.power = false then s
  else
    let res := f (readVal s)
    clearShifts { s with current := if jsFinite res then numToString res else "Error" }

/-- The dispatch core of trigApply (src/script.js lines 74-114), computing the
result value from the kind, the mode, the HYP and SHIFT toggles, and the read
value. -/
def trigResult (P : Prims) (kind : TrigKind) (mode : AngleMode)
    (hy sh : Bool) (val : JSNum) : JSNum :=
  let inRad := if mode = AngleMode.DEG then P.degToRad val else val
  if hy then
    if sh then
      match kind with
      | .sin => P.asinh val
      | .cos => P.acosh val
      | .tan => P.atanh val
    else
      match kind with
      | .sin => P.sinh inRad
      | .cos => P.cosh inRad
      | .tan => P.tanh inRad
  else
    if sh then
      let r :=
        match kind with
        | .sin => P.asin val
        | .cos => P.acos val
        | .tan => P.atan val
      if mode = AngleMode.DEG then P.radToDeg r else r
    else
      match kind with
      | .sin => P.sin inRad
      | .cos => P.cos inRad
      | .tan => P.tan inRad

/-- trigApply from src/script.js lines 74-119: guard on power, compute the
dispatched result on the read value, store it (error sentinel when not
finite), then one-shot-clear the modifiers. -/
def trigApply (P : Prims) (kind : TrigKind) (s : CalcState) : CalcState :=
  if s.power = false then s
  else
    let result := trigResult P kind s.mode s.hyp s.shift (readVal s)
    clearShifts
      { s with current := if jsFinite result then numToString result else "Error" }

/-- executePending from src/script.js lines 122-149.  With no pending
operator, commit the read value into acc and clear the entry.  Otherwise fold
acc with the right operand (the entry parse, or lastAns when the entry is
empty): division by a strict zero gives the error sentinel, as does any
non-finite result, resetting acc and the pending operator; a finite result is
stored into acc and lastAns and the entry is cleared. -/
def executePending (s : CalcState) : CalcState :=
  match s.pendingOp with
  | none => { s with acc := readVal s, current := "" }
  | some op =>
    let a := s.acc
    let b := if s.current = "" then s.lastAns else toNumber s.current
    let r : Option JSNum :=
      match op with
      | .add => some (jsAdd a b)
      | .sub => some (jsSub a b)
      | .mul => some (jsMul a b)
      | .div => if jsEqZero b then none else some (jsDiv a b)
      | .mod => some (jsRem a b)
    match r with
    | none => { s with current := "Error", acc := jsZero, pendingOp := none }
    | some v =>
      if jsFinite v then { s with acc := v, lastAns := v, current := "" }
      else { s with current := "Error", acc := jsZero, pendingOp := none }

/-- handleNumKey from src/script.js lines 374-381: ignore when powered off; a
second decimal point is rejected; a digit replaces a lone "0"; otherwise the
character is appended.  Note that no modifier is cleared here. -/
def handleNumKey (c : Char) (s : CalcState) : CalcState :=
  if s.power = false then s
  else if c = '.' ∧ '.' ∈ s.current.data then s
  else if s.current = "0" ∧ c ≠ '.' then { s with current := String.mk [c] }
  else { s with current := String.mk (s.current.data ++ [c]) }

/-- handleOp from src/script.js lines 383-394: with a pending operator and a
non-empty entry, evaluate first; else a non-empty entry is committed into acc;
finally the new operator becomes pending.  No modifier is cleared here. -/
def handleOp (o : BinOp) (s : CalcState) : CalcState :=
  if s.power = false then s
  else
    let s1 :=
      if s.pendingOp.isSome ∧ s.current ≠ "" then executePending s
      else if s.current ≠ "" then { s with acc := toNumber s.current, current := "" }
      else s
    { s1 with pendingOp := some o }

/-- handleKey from src/script.js lines 160-371, covering the function keys.
Only ON is accepted while powered off.  The digit, decimal point and operator
events never reach this handler (the adapter routes them to handleNumKey and
handleOp); they are mapped to the identity here. -/
def handleKey (P : Prims) (e : Event) (s : CalcState) : CalcState :=
  if s.power = false ∧ e ≠ Event.powerOn then s
  else
    match e with
    | .powerOn => { s with power := true, current := "" }
    | .shiftKey => { s with shift := !s.shift, alpha := false }
    | .alphaKey => { s with alpha := !s.alpha, shift := false }
    | .hypKey => { s with hyp := !s.hyp }
    | .modeKey => { s with mode := if s.mode = AngleMode.DEG then AngleMode.RAD else AngleMode.DEG }
    | .drg => { s with mode := if s.mode = AngleMode.DEG then AngleMode.RAD else AngleMode.DEG }
    | .ac =>
      if s.shift then
        { s with power := false, current := "", pendingOp := none,
                 acc := jsZero, lastAns := jsZero, shift := false, alpha := false }
      else
        { s with current := "", pendingOp := none, acc := jsZero,
                 lastAns := jsZero, shift := false, alpha := false }
    | .del =>
      if s.current ≠ "" then clearShifts { s with current := strDropLast s.current }
      else clearShifts s
    | .ans =>
      clearShifts
        { s with current := numToString (if jsFalsy s.lastAns then jsZero else s.lastAns) }
    | .pi => clearShifts { s with current := piString }
    | .percent => applyUnary (fun v => jsDiv v (JSNum.num ⟨100, 1⟩)) s
    | .sqrt => applyUnary P.sqrt s
    | .recip => applyUnary (fun v => jsDiv jsOne v) s
    | .square => applyUnary (fun v => jsMul v v) s
    | .cube => applyUnary (fun v => jsMul (jsMul v v) v) s
    | .log => if s.shift then applyUnary P.pow10 s else applyUnary P.log10 s
    | .ln => if s.shift then applyUnary P.exp s else applyUnary P.ln s
    | .trig k => trigApply P k s
    | .fact => applyUnary jsFact s
    | .eq =>
      let s1 := executePending s
      { s1 with lastAns := s1.acc, current := "", pendingOp := none,
                shift := false, alpha := false }
    | .sto l =>
      if s.alpha then
        match l with
        | none => clearShifts s
        | some k =>
          let v := if s.current = "" then s.lastAns else toNumber s.current
          clearShifts { s with vars := s.vars.set k v }
      else clearShifts s
    | .rcl l =>
      if s.alpha then
        match l with
        | none => clearShifts s
        | some k =>
          match s.vars.get k with
          | some v => clearShifts { s with current := numToString v }
          | none => clearShifts s
      else clearShifts s
    | .mplus => clearShifts { s with memory := jsAdd s.memory (readVal s) }
    | .mminus => clearShifts { s with memory := jsSub s.memory (readVal s) }
    | .mr => clearShifts { s with current := numToString s.memory }
    | .mc => clearShifts { s with memory := jsZero }
    | .eng =>
      let v := readVal s
      if jsEqZero v then clearShifts { s with current := "0" }
      else
        let p := jsFloor (jsDiv (P.log10 (jsAbs v)) (JSNum.num ⟨3, 1⟩))
        let e3 := jsMul p (JSNum.num ⟨3, 1⟩)
        let m := jsDiv v (jsPowTen e3)
        clearShifts { s with current := numToString m ++ "e" ++ numToString e3 }
    | .digit _ => s
    | .dot => s
    | .op _ => s

/-- One event step of the state machine: the adapter routes digit, decimal
point and operator keys to their dedicated handlers and all function keys to
handleKey. -/
def step (P : Prims) (s : CalcState) (e : Event) : CalcState :=
  match e with
  | .digit d => handleNumKey (Nat.digitChar d.val) s
  | .dot => handleNumKey '.' s
  | .op o => handleOp o s
  | _ => handleKey P e s

/-- Run the machine on a list of events. -/
def run (P : Prims) (s : CalcState) (es : List Event) : CalcState :=
  es.foldl (step P) s

/-- A state is reachable when some event sequence leads to it from the
initial powered-on state. -/
def Reachable (P : Prims) (s : CalcState) : Prop :=
  ∃ es : List Event, run P initState es = s

/-- The entry grammar of the specification: every character a digit or a
point, with at most one point. -/
def entryGrammarB (str : String) : Bool :=
  str.data.all (fun ch => ch.isDigit || ch == '.') && decide (str.data.count '.' ≤ 1)

/-- The events whose handlers one-shot-clear the modifiers. -/
def clearsModifiers : Event → Bool
  | .ac => true
  | .del => true
  | .ans => true
  | .pi => true
  | .percent => true
  | .sqrt => true
  | .recip => true
  | .square => true
  | .cube => true
  | .log => true
  | .ln => true
  | .trig _ => true
  | .fact => true
  | .eq => true
  | .sto _ => true
  | .rcl _ => true
  | .mplus => true
  | .mminus => true
  | .mr => true
  | .mc => true
  | .eng => true
  | _ => false

/-- The pure entry events of the entry grammar. -/
def entryEvent : Event → Bool
  | .digit _ => true
  | .dot => true
  | .del => true
  | _ => false

example : toNumber "8" = JSNum.num ⟨8, 1⟩ := by decide
example : toNumber "." = JSNum.nan := by decide
example : toNumber "Error" = JSNum.nan := by decide
example : toNumber "-5" = JSNum.num ⟨-5, 1⟩ := by decide
example : numToString (JSNum.num ⟨-5, 1⟩) = "-5" := by decide
example :
    (run anyPrims initState
      [Event.digit 8, Event.op BinOp.div, Event.digit 0, Event.eq]).current = "" := by
  decide

/-! ## Shared structural lemmas -/

theorem executePending_frame (s : CalcState) :
    (executePending s).power = s.power ∧ (executePending s).shift = s.shift ∧
    (executePending s).alpha = s.alpha ∧ (executePending s).hyp = s.hyp ∧
    (executePending s).mode = s.mode ∧ (executePending s).memory = s.memory ∧
    (executePending s).vars = s.vars := by
  unfold executePending
  rcases hop : s.pendingOp with _ | op
  · exact ⟨rfl, rfl, rfl, rfl, rfl, rfl, rfl⟩
  · cases op <;> dsimp only <;> (repeat' split) <;>
      exact ⟨rfl, rfl, rfl, rfl, rfl, rfl, rfl⟩

theorem applyUnary_frame (f : JSNum → JSNum) (s : CalcState) :
    (applyUnary f s).power = s.power ∧ (applyUnary f s).hyp = s.hyp ∧
    (applyUnary f s).mode = s.mode ∧ (applyUnary f s).acc = s.acc ∧
    (applyUnary f s).pendingOp = s.pendingOp ∧
    (applyUnary f s).lastAns = s.lastAns ∧
    (applyUnary f s).memory = s.memory ∧ (applyUnary f s).vars = s.vars := by
  unfold applyUnary clearShifts
  split <;> exact ⟨rfl, rfl, rfl, rfl, rfl, rfl, rfl, rfl⟩

theorem trigApply_frame (P : Prims) (k : TrigKind) (s : CalcState) :
    (trigApply P k s).power = s.power ∧ (trigApply P k s).hyp = s.hyp ∧
    (trigApply P k s).mode = s.mode ∧ (trigApply P k s).acc = s.acc ∧
    (trigApply P k s).pendingOp = s.pendingOp ∧
    (trigApply P k s).lastAns = s.lastAns ∧
    (trigApply P k s).memory = s.memory ∧ (trigApply P k s).vars = s.vars := by
  unfold trigApply clearShifts
  split <;> exact ⟨rfl, rfl, rfl, rfl, rfl, rfl, rfl, rfl⟩

theorem handleNumKey_frame (c : Char) (s : CalcState) :
    (handleNumKey c s).power = s.power ∧ (handleNumKey c s).shift = s.shift ∧
    (handleNumKey c s).alpha = s.alpha ∧ (handleNumKey c s).hyp = s.hyp ∧
    (handleNumKey c s).mode = s.mode ∧ (handleNumKey c s).acc = s.acc ∧
    (handleNumKey c s).pendingOp = s.pendingOp ∧
    (handleNumKey c s).lastAns = s.lastAns ∧
    (handleNumKey c s).memory = s.memory ∧ (handleNumKey c s).vars = s.vars := by
  unfold handleNumKey
  (repeat' split) <;> exact ⟨rfl, rfl, rfl, rfl, rfl, rfl, rfl, rfl, rfl, rfl⟩

theorem handleOp_frame (o : BinOp) (s : CalcState) :
    (handleOp o s).power = s.power ∧ (handleOp o s).shift = s.shift ∧
    (handleOp o s).alpha = s.alpha ∧ (handleOp o s).hyp = s.hyp ∧
    (handleOp o s).mode = s.mode ∧ (handleOp o s).memory = s.memory ∧
    (handleOp o s).vars = s.vars := by
  unfold handleOp
  split
  · exact ⟨rfl, rfl, rfl, rfl, rfl, rfl, rfl⟩
  · dsimp only
    split
    · have h := executePending_frame s
      exact ⟨h.1, h.2.1, h.2.2.1, h.2.2.2.1, h.2.2.2.2.1, h.2.2.2.2.2.1,
             h.2.2.2.2.2.2⟩
    · split <;> exact ⟨rfl, rfl, rfl, rfl, rfl, rfl, rfl⟩

theorem step_power_off (P : Prims) (s : CalcState) (e : Event)
    (hp : s.power = false) (he : e ≠ Event.powerOn) :
    step P s e = s := by
  cases e <;> simp_all [step, handleKey, handleNumKey, handleOp]

/-! ## Claim theorems -/

/-- C1: running Digit 8, BinaryOp div, Digit 0, Equals from the initial state.
The source sets the error sentinel inside executePending, but the Equals
handler then unconditionally overwrites the entry with the empty string, so
the final state has current empty (the display falls back to lastAns = 0),
while acc = 0 and pendingOp = none do hold.  This contradicts the claimed
current = "Error". -/
theorem c1_div_zero_equals_run :
    (run anyPrims initState
      [Event.digit 8, Event.op BinOp.div, Event.digit 0, Event.eq]).current = "" ∧
    (run anyPrims initState
      [Event.digit 8, Event.op BinOp.div, Event.digit 0, Event.eq]).acc = jsZero ∧
    (run anyPrims initState
      [Event.digit 8, Event.op BinOp.div, Event.digit 0, Event.eq]).pendingOp = none ∧
    (run anyPrims initState
      [Event.digit 8, Event.op BinOp.div, Event.digit 0, Event.eq]).lastAns = jsZero ∧
    (run anyPrims initState
      [Event.digit 8, Event.op BinOp.div, Event.digit 0, Event.op BinOp.add]).current
      = "Error" := by
  refine ⟨?_, ?_, ?_, ?_, ?_⟩ <;> decide

/-- C3: the chain Digit 5, BinaryOp +, Digit 3, BinaryOp +, Digit 2, Equals
folds left-to-right with no precedence and yields lastAns = 10, for every
interpretation of the host math functions (none is invoked). -/
theorem c3_left_to_right_chain (P : Prims) :
    (run P initState [Event.digit 5, Event.op BinOp.add, Event.digit 3,
      Event.op BinOp.add, Event.digit 2, Event.eq]).lastAns = JSNum.num ⟨10, 1⟩ := by
  rfl

/-- C6: while powered off, every event other than PowerOn leaves the whole
state unchanged. -/
theorem c6_power_off_noop (P : Prims) (s : CalcState) (e : Event)
    (hp : s.power = false) (he : e ≠ Event.powerOn) :
    step P s e = s :=
  step_power_off P s e hp he

/-- Witness for C6 at a concrete powered-off state and the Digit 5 event. -/
theorem c6_power_off_noop_witness :
    ({ initState with power := false } : CalcState).power = false ∧
    (Event.digit 5 ≠ Event.powerOn) ∧
    step anyPrims { initState with power := false } (Event.digit 5) =
      { initState with power := false } :=
  ⟨rfl, by decide, c6_power_off_noop anyPrims _ _ rfl (by decide)⟩

/-- C8: on a powered-on state, PowerOn still resets current to the empty
string and changes nothing else. -/
theorem c8_poweron_resets_current (P : Prims) (s : CalcState)
    (hp : s.power = true) :
    step P s Event.powerOn = { s with current := "" } := by
  cases s
  simp_all [step, handleKey]

/-- Witness for C8 at a concrete powered-on state with an in-progress entry. -/
theorem c8_poweron_resets_current_witness :
    ({ initState with current := "42" } : CalcState).power = true ∧
    step anyPrims { initState with current := "42" } Event.powerOn =
      { initState with current := "" } :=
  ⟨rfl, c8_poweron_resets_current anyPrims _ rfl⟩

/-- C10: on any powered-on state whose entry is the error sentinel, the
factorial key reads NaN, floor gives NaN, the negativity test and the product
loop are both skipped, and the finite result 1 replaces the sentinel. -/
theorem c10_factorial_discards_error (P : Prims) (s : CalcState)
    (hp : s.power = true) (hc : s.current = "Error") :
    (step P s Event.fact).current = "1" := by
  have h1 : readVal s = JSNum.nan := by
    unfold readVal
    rw [hc, if_neg (by decide : ¬ ("Error" : String) = "")]
    decide
  have h2 : jsFact JSNum.nan = jsOne := by decide
  simp [step, handleKey, hp, applyUnary, h1, h2, clearShifts]
  decide

/-- Witness for C10 at a concrete state carrying the error sentinel. -/
theorem c10_factorial_discards_error_witness :
    ({ initState with current := "Error" } : CalcState).power = true ∧
    ({ initState with current := "Error" } : CalcState).current = "Error" ∧
    (step anyPrims { initState with current := "Error" } Event.fact).current = "1" :=
  ⟨rfl, rfl, c10_factorial_discards_error anyPrims _ rfl rfl⟩

theorem executePending_power (s : CalcState) :
    (executePending s).power = s.power := (executePending_frame s).1

theorem executePending_shift (s : CalcState) :
    (executePending s).shift = s.shift := (executePending_frame s).2.1

theorem executePending_alpha (s : CalcState) :
    (executePending s).alpha = s.alpha := (executePending_frame s).2.2.1

theorem executePending_hyp (s : CalcState) :
    (executePending s).hyp = s.hyp := (executePending_frame s).2.2.2.1

theorem executePending_mode (s : CalcState) :
    (executePending s).mode = s.mode := (executePending_frame s).2.2.2.2.1

theorem applyUnary_power (f : JSNum → JSNum) (s : CalcState) :
    (applyUnary f s).power = s.power := (applyUnary_frame f s).1

theorem applyUnary_hyp (f : JSNum → JSNum) (s : CalcState) :
    (applyUnary f s).hyp = s.hyp := (applyUnary_frame f s).2.1

theorem applyUnary_mode (f : JSNum → JSNum) (s : CalcState) :
    (applyUnary f s).mode = s.mode := (applyUnary_frame f s).2.2.1

theorem trigApply_power (P : Prims) (k : TrigKind) (s : CalcState) :
    (trigApply P k s).power = s.power := (trigApply_frame P k s).1

theorem trigApply_hyp (P : Prims) (k : TrigKind) (s : CalcState) :
    (trigApply P k s).hyp = s.hyp := (trigApply_frame P k s).2.1

theorem trigApply_mode (P : Prims) (k : TrigKind) (s : CalcState) :
    (trigApply P k s).mode = s.mode := (trigApply_frame P k s).2.2.1

theorem handleNumKey_power (c : Char) (s : CalcState) :
    (handleNumKey c s).power = s.power := (handleNumKey_frame c s).1

theorem handleNumKey_shift (c : Char) (s : CalcState) :
    (handleNumKey c s).shift = s.shift := (handleNumKey_frame c s).2.1

theorem handleNumKey_hyp (c : Char) (s : CalcState) :
    (handleNumKey c s).hyp = s.hyp := (handleNumKey_frame c s).2.2.2.1

theorem handleNumKey_mode (c : Char) (s : CalcState) :
    (handleNumKey c s).mode = s.mode := (handleNumKey_frame c s).2.2.2.2.1

theorem handleOp_power (o : BinOp) (s : CalcState) :
    (handleOp o s).power = s.power := (handleOp_frame o s).1

theorem handleOp_shift (o : BinOp) (s : CalcState) :
    (handleOp o s).shift = s.shift := (handleOp_frame o s).2.1

theorem handleOp_hyp (o : BinOp) (s : CalcState) :
    (handleOp o s).hyp = s.hyp := (handleOp_frame o s).2.2.2.1

theorem handleOp_mode (o : BinOp) (s : CalcState) :
    (handleOp o s).mode = s.mode := (handleOp_frame o s).2.2.2.2.1

/-- C2 counterexample: the claim includes Digit events among those that clear
the modifiers, but handleNumKey never clears them; after Shift then Digit 5
from the initial state (a reachable state), shift is still true. -/
theorem c2_one_shot_counterexample :
    Reachable anyPrims (run anyPrims initState [Event.shiftKey]) ∧
    (step anyPrims (run anyPrims initState [Event.shiftKey])
      (Event.digit 5)).shift = true :=
  ⟨⟨[Event.shiftKey], rfl⟩, by decide⟩

/-- C2 amended: on a powered-on state, the events whose handlers call
clearShifts (AllClear, Delete, Ans, Pi, the unary and trig function keys,
Equals, Store, Recall, the memory keys, and EngNotation) leave shift and
alpha false and hyp unchanged.  Digit, DecimalPoint, BinaryOp, PowerOn and
the modifier and mode toggles are excluded: their handlers do not clear the
one-shot modifiers. -/
theorem c2_one_shot_amended (P : Prims) (s : CalcState) (e : Event)
    (hp : s.power = true) (he : clearsModifiers e = true) :
    (step P s e).shift = false ∧ (step P s e).alpha = false ∧
    (step P s e).hyp = s.hyp := by
  cases e <;>
    simp_all [clearsModifiers, step, handleKey, applyUnary, trigApply,
      clearShifts, executePending_hyp] <;>
    (repeat' split) <;> simp_all

/-- Witness for C2 at the initial state and the Delete event. -/
theorem c2_one_shot_amended_witness :
    initState.power = true ∧ clearsModifiers Event.del = true ∧
    ((step anyPrims initState Event.del).shift = false ∧
     (step anyPrims initState Event.del).alpha = false ∧
     (step anyPrims initState Event.del).hyp = initState.hyp) :=
  ⟨rfl, rfl, c2_one_shot_amended anyPrims initState Event.del rfl rfl⟩

/-- C9: only the MODE and DRG events ever change the angle mode; every other
event, on any state, leaves mode unchanged. -/
theorem c9_mode_frame (P : Prims) (s : CalcState) (e : Event)
    (h1 : e ≠ Event.modeKey) (h2 : e ≠ Event.drg) :
    (step P s e).mode = s.mode := by
  cases e <;>
    simp_all [step, handleKey, handleNumKey_mode, handleOp_mode,
      applyUnary_mode, trigApply_mode, executePending_mode, clearShifts] <;>
    (repeat' split) <;>
    simp_all [applyUnary_mode, trigApply_mode, executePending_mode, clearShifts]

/-- Witness for C9 at the initial state and the AllClear event. -/
theorem c9_mode_frame_witness :
    (Event.ac ≠ Event.modeKey) ∧ (Event.ac ≠ Event.drg) ∧
    (step anyPrims initState Event.ac).mode = initState.mode :=
  ⟨by decide, by decide, c9_mode_frame anyPrims initState Event.ac (by decide) (by decide)⟩

/-- C4: the trig dispatch.  With hyp and shift both set, the inverse
hyperbolic function is applied to the read value itself, with no angle
conversion before or after.  With shift alone, the inverse trig function is
applied to the read value and the result is converted to degrees exactly when
the mode is DEG.  With shift clear, the (hyperbolic or forward) function is
applied to the degree-converted value exactly when the mode is DEG.  Finally,
the Trig event stores the dispatched result on the read value (error sentinel
when not finite). -/
theorem c4_trig_dispatch (P : Prims) (m : AngleMode) (v : JSNum) :
    (trigResult P TrigKind.sin m true true v = P.asinh v ∧
     trigResult P TrigKind.cos m true true v = P.acosh v ∧
     trigResult P TrigKind.tan m true true v = P.atanh v) ∧
    (trigResult P TrigKind.sin m false true v =
       (if m = AngleMode.DEG then P.radToDeg (P.asin v) else P.asin v) ∧
     trigResult P TrigKind.cos m false true v =
       (if m = AngleMode.DEG then P.radToDeg (P.acos v) else P.acos v) ∧
     trigResult P TrigKind.tan m false true v =
       (if m = AngleMode.DEG then P.radToDeg (P.atan v) else P.atan v)) ∧
    (∀ hy : Bool,
      trigResult P TrigKind.sin m hy false v =
        (if hy then P.sinh else P.sin) (if m = AngleMode.DEG then P.degToRad v else v) ∧
      trigResult P TrigKind.cos m hy false v =
        (if hy then P.cosh else P.cos) (if m = AngleMode.DEG then P.degToRad v else v) ∧
      trigResult P TrigKind.tan m hy false v =
        (if hy then P.tanh else P.tan) (if m = AngleMode.DEG then P.degToRad v else v)) ∧
    (∀ (s : CalcState) (k : TrigKind), s.power = true →
      (step P s (Event.trig k)).current =
        (if jsFinite (trigResult P k s.mode s.hyp s.shift (readVal s))
         then numToString (trigResult P k s.mode s.hyp s.shift (readVal s))
         else "Error")) := by
  refine ⟨⟨rfl, rfl, rfl⟩, ⟨rfl, rfl, rfl⟩,
    fun hy => ⟨?_, ?_, ?_⟩, fun s k hsp => ?_⟩
  · cases hy <;> rfl
  · cases hy <;> rfl
  · cases hy <;> rfl
  · simp [step, handleKey, trigApply, hsp, clearShifts]

/-- Witness for C4 at the initial state and the sin key. -/
theorem c4_trig_dispatch_witness :
    initState.power = true ∧
    (step anyPrims initState (Event.trig TrigKind.sin)).current =
      (if jsFinite (trigResult anyPrims TrigKind.sin initState.mode
            initState.hyp initState.shift (readVal initState))
       then numToString (trigResult anyPrims TrigKind.sin initState.mode
            initState.hyp initState.shift (readVal initState))
       else "Error") :=
  ⟨rfl, (c4_trig_dispatch anyPrims AngleMode.DEG jsZero).2.2.2 initState
    TrigKind.sin rfl⟩

theorem digitChar_isDigit (d : Fin 10) : (Nat.digitChar d.val).isDigit = true := by
  revert d
  decide

theorem entryGrammarB_single (c : Char) (hc : c.isDigit = true) :
    entryGrammarB (String.mk [c]) = true := by
  simp [entryGrammarB, hc, List.count_cons]
  split <;> simp

theorem entryGrammarB_push (str : String) (c : Char)
    (hg : entryGrammarB str = true) (hc : c.isDigit = true) :
    entryGrammarB (String.mk (str.data ++ [c])) = true := by
  have hne : ('.' : Char) ≠ c := by
    intro hcc
    rw [← hcc] at hc
    exact Bool.noConfusion hc
  simp only [entryGrammarB, Bool.and_eq_true, List.all_eq_true,
    decide_eq_true_eq, List.count_append, List.mem_append] at hg ⊢
  obtain ⟨h1, h2⟩ := hg
  constructor
  · intro x hx
    rcases hx with hx | hx
    · exact h1 x hx
    · simp only [List.mem_singleton] at hx
      subst hx
      simp [hc]
  · simp [List.count_cons, hne]
    exact h2

theorem entryGrammarB_push_dot (str : String)
    (hg : entryGrammarB str = true) (hnd : '.' ∉ str.data) :
    entryGrammarB (String.mk (str.data ++ ['.'])) = true := by
  simp only [entryGrammarB, Bool.and_eq_true, List.all_eq_true,
    decide_eq_true_eq, List.count_append, List.mem_append] at hg ⊢
  obtain ⟨h1, _⟩ := hg
  constructor
  · intro x hx
    rcases hx with hx | hx
    · exact h1 x hx
    · simp only [List.mem_singleton] at hx
      subst hx
      simp
  · have h0 : str.data.count '.' = 0 := List.count_eq_zero.mpr hnd
    simp [h0, List.count_cons]

theorem entryGrammarB_dropLast (str : String)
    (hg : entryGrammarB str = true) :
    entryGrammarB (String.mk str.data.dropLast) = true := by
  simp only [entryGrammarB, Bool.and_eq_true, List.all_eq_true,
    decide_eq_true_eq] at hg ⊢
  obtain ⟨h1, h2⟩ := hg
  exact ⟨fun x hx => h1 x (List.dropLast_subset _ hx),
    le_trans (List.Sublist.count_le (List.dropLast_sublist _) _) h2⟩

theorem handleNumKey_grammar (c : Char) (s : CalcState)
    (hc : c.isDigit = true ∨ c = '.')
    (hg : entryGrammarB s.current = true) :
    entryGrammarB (handleNumKey c s).current = true := by
  unfold handleNumKey
  by_cases h1 : s.power = false
  · rw [if_pos h1]
    exact hg
  · rw [if_neg h1]
    by_cases h2 : c = '.' ∧ '.' ∈ s.current.data
    · rw [if_pos h2]
      exact hg
    · rw [if_neg h2]
      by_cases h3 : s.current = "0" ∧ c ≠ '.'
      · rw [if_pos h3]
        rcases hc with hd | hd
        · exact entryGrammarB_single c hd
        · exact absurd hd h3.2
      · rw [if_neg h3]
        rcases hc with hd | hd
        · exact entryGrammarB_push s.current c hg hd
        · subst hd
          exact entryGrammarB_push_dot s.current hg (fun hmem => h2 ⟨rfl, hmem⟩)

/-- C5 counterexample: the entry-grammar invariant does not hold of every
reachable non-empty entry.  After BinaryOp minus, Digit 5, Equals, Ans the
entry is the string form of lastAns = -5, whose minus sign is outside the
digits-and-point grammar ("Error" entries are further reachable cases). -/
theorem c5_entry_grammar_counterexample :
    Reachable anyPrims (run anyPrims initState
      [Event.op BinOp.sub, Event.digit 5, Event.eq, Event.ans]) ∧
    (run anyPrims initState
      [Event.op BinOp.sub, Event.digit 5, Event.eq, Event.ans]).current ≠ "" ∧
    entryGrammarB (run anyPrims initState
      [Event.op BinOp.sub, Event.digit 5, Event.eq, Event.ans]).current = false :=
  ⟨⟨[Event.op BinOp.sub, Event.digit 5, Event.eq, Event.ans], rfl⟩,
    by decide, by decide⟩

/-- C5 amended: the entry-construction events Digit, DecimalPoint and Delete
preserve the entry grammar (digits with at most one point, a second point
rejected); the grammar is not an invariant of all events, since Ans can store
a signed string and the error paths store the sentinel. -/
theorem c5_entry_grammar_preserved (P : Prims) (s : CalcState) (e : Event)
    (hg : entryGrammarB s.current = true) (he : entryEvent e = true) :
    entryGrammarB (step P s e).current = true := by
  cases e
  case digit d =>
    exact handleNumKey_grammar _ s (Or.inl (digitChar_isDigit d)) hg
  case dot =>
    exact handleNumKey_grammar '.' s (Or.inr rfl) hg
  case del =>
    show entryGrammarB (handleKey P Event.del s).current = true
    unfold handleKey
    split
    · exact hg
    · dsimp only
      split
      · exact entryGrammarB_dropLast s.current hg
      · exact hg
  all_goals exact Bool.noConfusion he

/-- Witness for C5 at a concrete grammar-conforming entry and the Digit 1
event. -/
theorem c5_entry_grammar_preserved_witness :
    entryGrammarB ({ initState with current := "3." } : CalcState).current = true ∧
    entryEvent (Event.digit 1) = true ∧
    entryGrammarB
      (step anyPrims { initState with current := "3." } (Event.digit 1)).current
      = true :=
  ⟨by decide, rfl,
    c5_entry_grammar_preserved anyPrims { initState with current := "3." }
      (Event.digit 1) (by decide) rfl⟩

theorem step_shift_imp_power (P : Prims) (s : CalcState) (e : Event)
    (h : s.shift = true → s.power = true) :
    (step P s e).shift = true → (step P s e).power = true := by
  by_cases hp : s.power = true
  · cases e <;>
      simp_all [step, handleKey, handleNumKey_shift, handleNumKey_power,
        handleOp_shift, handleOp_power, applyUnary, trigApply,
        executePending_power, executePending_shift, clearShifts] <;>
      (repeat' split) <;>
      simp_all [executePending_power, executePending_shift, clearShifts]
  · have hp' : s.power = false := by
      cases hps : s.power
      · rfl
      · exact absurd hps hp
    by_cases hep : e = Event.powerOn
    · subst hep
      simp [step, handleKey]
    · rw [step_power_off P s e hp' hep]
      exact h

theorem run_shift_imp_power (P : Prims) (es : List Event) :
    ∀ t : CalcState, (t.shift = true → t.power = true) →
      ((run P t es).shift = true → (run P t es).power = true) := by
  induction es with
  | nil => exact fun t h => h
  | cons e es ih => exact fun t h => ih (step P t e) (step_shift_imp_power P t e h)

theorem reachable_shift_power (P : Prims) (s : CalcState)
    (hr : Reachable P s) (hs : s.shift = true) : s.power = true := by
  obtain ⟨es, rfl⟩ := hr
  exact run_shift_imp_power P es initState (fun _ => rfl) hs

/-- C7: on any reachable state with shift set, AllClear performs the
power-off: power, current, pendingOp, acc, lastAns, shift and alpha are
reset, while hyp, memory, vars and mode keep their values. -/
theorem c7_shift_allclear_power_off (P : Prims) (s : CalcState)
    (hr : Reachable P s) (hs : s.shift = true) :
    step P s Event.ac =
      { s with power := false, current := "", pendingOp := none,
               acc := jsZero, lastAns := jsZero, shift := false,
               alpha := false } := by
  have hp : s.power = true := reachable_shift_power P s hr hs
  simp [step, handleKey, hp, hs]

/-- Witness for C7 at the reachable state produced by the Shift event. -/
theorem c7_shift_allclear_power_off_witness :
    (run anyPrims initState [Event.shiftKey]).shift = true ∧
    step anyPrims (run anyPrims initState [Event.shiftKey]) Event.ac =
      { run anyPrims initState [Event.shiftKey] with
          power := false, current := "", pendingOp := none,
          acc := jsZero, lastAns := jsZero, shift := false, alpha := false } :=
  ⟨by decide,
    c7_shift_allclear_power_off anyPrims (run anyPrims initState [Event.shiftKey])
      ⟨[Event.shiftKey], rfl⟩ (by decide)⟩
